import Mathlib

/-!
Shallow embedding of the query-composition layer of the Ecommerce-STD
backend: the `ApiFeatures` class (filter / sort / limitFields / search /
paginate, from `src/utils/apiFeatures.utils.js` as reproduced in
`src/postman/SCRIPT-FIXES.md`) and the generic `getAll` list handler
(`src/services/handlers.factory.js`).

Parameter maps are association lists of string keys to values that are
either strings or one-level nested objects of string entries (the shape
the web framework produces from a URL query string, e.g.
`price[gte]=100` parses to the entry `("price", obj [("gte", "100")])`).
Machine numbers are modelled as `Int`; the JS numeric coercion `s * 1`
is modelled for optionally signed decimal integers, with `NaN` as
`none` (fractional and exotic numeric literals are outside the model).
The persistence engine is out of scope per the spec; its
find/sort/select/skip/limit query-builder interface is modelled by the
`MQuery` record, where a `find` call ANDs its conditions into the
query, and query execution over an in-memory collection is modelled by
`execQuery`.
-/

namespace Ecom

/-- A query-string parameter value: a string, or a one-level nested object
of string entries. -/
inductive ParamVal
  | str (s : String)
  | obj (entries : List (String × String))
deriving DecidableEq

/-- A parameter map (`req.query`, or the parsed/rewritten filter object):
an association list from keys to values. -/
abbrev Params := List (String × ParamVal)

/-- Property access `params[k]`: the first entry with key `k`, if any. -/
def lookupParam (params : Params) (k : String) : Option ParamVal :=
  (params.find? (fun p => p.1 == k)).map Prod.snd

/-- ASCII whitespace, for the whitespace stripping of JS numeric
coercion. -/
def isSpaceChar (c : Char) : Bool :=
  c == ' ' || c == '\t' || c == '\n' || c == '\r'

/-- Strip leading and trailing whitespace from a character list. -/
def trimChars (cs : List Char) : List Char :=
  ((cs.dropWhile isSpaceChar).reverse.dropWhile isSpaceChar).reverse

/-- ASCII decimal digit test. -/
def isDigitChar (c : Char) : Bool := 48 ≤ c.toNat && c.toNat ≤ 57

/-- JS numeric coercion of a string (`s * 1`): an empty or all-whitespace
string coerces to 0, an optionally signed decimal integer to its value,
anything else to NaN (modelled as `none`). -/
def jsToNum (s : String) : Option Int :=
  let t := trimChars s.toList
  if t.isEmpty then some 0
  else
    let signAndDigits : Int × List Char :=
      match t with
      | '-' :: rest => (-1, rest)
      | '+' :: rest => (1, rest)
      | cs => (1, cs)
    let ds := signAndDigits.2
    if ds.isEmpty then none
    else if ds.all isDigitChar then
      some (signAndDigits.1 *
        (ds.foldl (fun acc c => acc * 10 + (c.toNat - 48)) 0 : Nat))
    else none

/-- JS numeric coercion of a parameter value: a plain object coerces to
NaN. -/
def coerceNum : ParamVal → Option Int
  | .str s => jsToNum s
  | .obj _ => none

/-- JS truthiness of a parameter value: the empty string is falsy, every
other string and every object is truthy. -/
def truthyVal : ParamVal → Bool
  | .str s => !(s == "")
  | .obj _ => true

/-- Word characters for the regex word boundary used by the filter
stage's rewrite: ASCII letters, digits and underscore. -/
def isWordChar (c : Char) : Bool :=
  isDigitChar c || (65 ≤ c.toNat && c.toNat ≤ 90) ||
    (97 ≤ c.toNat && c.toNat ≤ 122) || c == '_'

/-- Whether a word boundary holds before the current position, given the
preceding character (none at the start of the string). -/
def boundaryBefore : Option Char → Bool
  | some c => !isWordChar c
  | none => true

/-- Whether a word boundary holds after a candidate match, given the
remaining characters. -/
def boundaryAfter : List Char → Bool
  | c :: _ => !isWordChar c
  | [] => true

/-- Character-level model of the filter stage's regex rewrite over the
serialized parameter object: every word-bounded occurrence of gte, gt,
lte, lt (alternation tried in that order, as in the source pattern) is
replaced by the same word prefixed with a dollar sign. `prev` is the
character preceding the current position, if any. -/
def replaceOpsAux : Option Char → List Char → List Char
  | _, [] => []
  | prev, 'g' :: 't' :: 'e' :: rest =>
      if boundaryBefore prev && boundaryAfter rest then
        '$' :: 'g' :: 't' :: 'e' :: replaceOpsAux (some 'e') rest
      else
        'g' :: replaceOpsAux (some 'g') ('t' :: 'e' :: rest)
  | prev, 'g' :: 't' :: rest =>
      if boundaryBefore prev && boundaryAfter rest then
        '$' :: 'g' :: 't' :: replaceOpsAux (some 't') rest
      else
        'g' :: replaceOpsAux (some 'g') ('t' :: rest)
  | prev, 'l' :: 't' :: 'e' :: rest =>
      if boundaryBefore prev && boundaryAfter rest then
        '$' :: 'l' :: 't' :: 'e' :: replaceOpsAux (some 'e') rest
      else
        'l' :: replaceOpsAux (some 'l') ('t' :: 'e' :: rest)
  | prev, 'l' :: 't' :: rest =>
      if boundaryBefore prev && boundaryAfter rest then
        '$' :: 'l' :: 't' :: replaceOpsAux (some 't') rest
      else
        'l' :: replaceOpsAux (some 'l') ('t' :: rest)
  | _, c :: rest => c :: replaceOpsAux (some c) rest

/-- The source's `queryStr.replace(a word-bounded gte, gt, lte or lt,
prefixing the match with a dollar sign)`, applied to one string. In the
serialized JSON text, a match can only lie inside a key or inside a
string value (the structural characters and digits are non-word
characters), so applying the rewrite to each key and each string value
separately is exactly the serialize-rewrite-reparse of the source. -/
def replaceOps (s : String) : String := String.mk (replaceOpsAux none s.toList)

/-- The rewrite applied to one entry of the parameter object (keys and
string values at both nesting levels live inside the serialized text). -/
def rewriteEntry : String × ParamVal → String × ParamVal
  | (k, .str s) => (replaceOps k, .str (replaceOps s))
  | (k, .obj es) =>
      (replaceOps k, .obj (es.map (fun e => (replaceOps e.1, replaceOps e.2))))

/-- The rewrite applied to the whole parameter object. -/
def rewriteParams (ps : Params) : Params := ps.map rewriteEntry

/-- Split a character list on a separator character; like the JS
single-character `split`, the empty input yields one empty piece. -/
def splitChars (sep : Char) (acc : List Char) : List Char → List (List Char)
  | [] => [acc.reverse]
  | c :: rest =>
      if c == sep then acc.reverse :: splitChars sep [] rest
      else splitChars sep (c :: acc) rest

/-- Join character-list pieces with a separator list (the JS `join`). -/
def joinChars (sep : List Char) : List (List Char) → List Char
  | [] => []
  | [x] => x
  | x :: y :: xs => x ++ sep ++ joinChars sep (y :: xs)

/-- The source idiom `s.split(a comma).join(a space)` used by the sort
and limitFields stages. -/
def commaToSpace (s : String) : String :=
  String.mk (joinChars [' '] (splitChars ',' [] s.toList))

/-- A stored field value: a number (modelled as `Int`) or a string. -/
inductive DVal
  | int (n : Int)
  | str (s : String)
deriving DecidableEq

/-- A stored document: an association list from field names to values. -/
abbrev Doc := List (String × DVal)

/-- Field access on a document. -/
def dlookup (d : Doc) (f : String) : Option DVal :=
  (d.find? (fun e => e.1 == f)).map Prod.snd

/-- Lower-cased character code (ASCII case folding, as the regex
case-insensitivity option behaves on the ASCII range). -/
def lowerCode (c : Char) : Nat :=
  if 65 ≤ c.toNat && c.toNat ≤ 90 then c.toNat + 32 else c.toNat

/-- Case-insensitive substring match: the semantics of the engine's
regex predicate with pattern `pat` and the case-insensitivity option,
for the plain-text patterns the pipeline builds. -/
def containsCI (hay pat : String) : Bool :=
  let h := hay.toList.map lowerCode
  let p := pat.toList.map lowerCode
  (List.range (h.length + 1)).any (fun i => (h.drop i).take p.length == p)

/-- Strict lexicographic order on character-code lists (the string order
the engine compares with). -/
def lexLtCodes : List Nat → List Nat → Bool
  | [], [] => false
  | [], _ :: _ => true
  | _ :: _, [] => false
  | a :: as, b :: bs =>
      if a < b then true else if b < a then false else lexLtCodes as bs

/-- Strict lexicographic order on strings by character code. -/
def strLt (a b : String) : Bool :=
  lexLtCodes (a.toList.map (fun c => c.toNat)) (b.toList.map (fun c => c.toNat))

/-- A single condition merged into the query by a `find` call:
an equality-or-range entry of the (rewritten) filter object, a
case-insensitive regex predicate, or a disjunction of two conditions. -/
inductive MCond
  | field (name : String) (val : ParamVal)
  | regexI (fieldName : String) (pat : ParamVal)
  | orC (a b : MCond)
deriving DecidableEq

/-- Semantics of one comparison operator entry `fieldValue <op> v`
(`v` is the raw string operand; the engine casts it per the schema, so a
numeric operand compares only against numeric field values and a
non-numeric operand only against string values; a comparison on a
missing field or an unknown operator does not match). -/
def evalOp (op : String) (dv : Option DVal) (v : String) : Bool :=
  match dv with
  | none => false
  | some (.int n) =>
      match jsToNum v with
      | none => false
      | some m =>
          if op == "$gte" then m ≤ n
          else if op == "$gt" then m < n
          else if op == "$lte" then n ≤ m
          else if op == "$lt" then n < m
          else false
  | some (.str t) =>
      if (jsToNum v).isSome then false
      else
        if op == "$gte" then !(strLt t v)
        else if op == "$gt" then strLt v t
        else if op == "$lte" then !(strLt v t)
        else if op == "$lt" then strLt t v
        else false

/-- Whether a document satisfies one condition. Equality against a string
operand matches a string field verbatim and a numeric field through the
schema cast; a regex predicate matches only string field values, and only
for string patterns (an object pattern is a cast error at execution time,
modelled as not matching). -/
def evalCond : MCond → Doc → Bool
  | .field f (.str s), d =>
      match dlookup d f with
      | some (.int n) => jsToNum s == some n
      | some (.str t) => t == s
      | none => false
  | .field f (.obj es), d => es.all (fun e => evalOp e.1 (dlookup d f) e.2)
  | .regexI f pat, d =>
      match dlookup d f, pat with
      | some (.str t), .str p => containsCI t p
      | _, _ => false
  | .orC a b, d => evalCond a d || evalCond b d

/-- Whether a document satisfies every accumulated condition (the AND of
all `find` calls made on the query). -/
def condsSat (cs : List MCond) (d : Doc) : Bool := cs.all (fun c => evalCond c d)

/-- The conditions contributed by a `find` call on a parameter object. -/
def condsOfObj (ps : Params) : List MCond :=
  ps.map (fun e => MCond.field e.1 e.2)

/-- The engine's query-builder state (the spec's `QueryBuilder`): the
accumulated filter conditions and the sort, projection, skip and limit
clauses. -/
structure MQuery where
  conds : List MCond
  sortSpec : Option String
  selectSpec : Option String
  skipVal : Option Int
  limitVal : Option Int
deriving DecidableEq

/-- The empty query (`Model.find()` before any clause). -/
def emptyQuery : MQuery :=
  { conds := [], sortSpec := none, selectSpec := none,
    skipVal := none, limitVal := none }

/-- A `find` call on the builder: ANDs the given conditions into the
query (the spec's stated merge semantics for the engine interface). -/
def MQuery.find (q : MQuery) (cs : List MCond) : MQuery :=
  { q with conds := q.conds ++ cs }

/-- A `sort` call on the builder. -/
def MQuery.sortBy (q : MQuery) (s : String) : MQuery :=
  { q with sortSpec := some s }

/-- A `select` call on the builder. -/
def MQuery.selectBy (q : MQuery) (s : String) : MQuery :=
  { q with selectSpec := some s }

/-- A `skip` call on the builder. -/
def MQuery.skip (q : MQuery) (n : Int) : MQuery :=
  { q with skipVal := some n }

/-- A `limit` call on the builder. -/
def MQuery.limit (q : MQuery) (n : Int) : MQuery :=
  { q with limitVal := some n }

/-- The pagination summary built by the paginate stage (the spec's
`PaginationResult`); `next` and `prev` are `none` when the source leaves
the property unset. -/
structure PaginationResult where
  currentPage : Int
  limit : Int
  numberOfPages : Int
  next : Option Int
  prev : Option Int
deriving DecidableEq

/-- The source idiom `v * 1 || dflt`: numeric coercion followed by
defaulting on a falsy result, where both NaN and 0 are falsy. -/
def jsDefaultNum (v : Option ParamVal) (dflt : Int) : Int :=
  match v with
  | none => dflt
  | some pv =>
      match coerceNum pv with
      | none => dflt
      | some n => if n = 0 then dflt else n

/-- The effective page of a parameter map:
`this.queryString.page * 1 || 1`. -/
def effPage (params : Params) : Int := jsDefaultNum (lookupParam params "page") 1

/-- The effective limit of a parameter map:
`this.queryString.limit * 1 || 50`. -/
def effLimit (params : Params) : Int :=
  jsDefaultNum (lookupParam params "limit") 50

/-- `Math.ceil(a / b)` on exact integer inputs: the ceiling of the
rational a / b, computed as the negated floor division of the negated
numerator. The divisor is never 0 on the paths that use this (the
effective limit is defaulted away from 0). -/
def mathCeilDiv (a b : Int) : Int := -(Int.fdiv (-a) b)

/-- The pagination object the paginate stage stores in
`this.paginationResult`, built from the parameter map and the
caller-supplied total document count. -/
def buildPagination (params : Params) (countDocuments : Nat) : PaginationResult :=
  let page := effPage params
  let limit := effLimit params
  let skip := (page - 1) * limit
  let endIndex := page * limit
  { currentPage := page
    limit := limit
    numberOfPages := mathCeilDiv countDocuments limit
    next := if endIndex < (countDocuments : Int) then some (page + 1) else none
    prev := if 0 < skip then some (page - 1) else none }

/-- The `ApiFeatures` instance: the wrapped query-builder handle, the
raw parameter map, and the pagination summary once `paginate` has run. -/
structure ApiFeatures where
  mongooseQuery : MQuery
  queryString : Params
  paginationResult : Option PaginationResult
deriving DecidableEq

/-- The `filter` method: copies the parameter map, deletes the control
keys page, sort, limit and fields, serializes the remainder, rewrites
the word-bounded comparison keywords to dollar-prefixed operators,
reparses, and merges the result into the query with a `find` call. -/
def ApiFeatures.filter (af : ApiFeatures) : ApiFeatures :=
  let queryStringObj := af.queryString.filter
    (fun e => !(["page", "sort", "limit", "fields"].contains e.1))
  let parsed := rewriteParams queryStringObj
  { af with mongooseQuery := af.mongooseQuery.find (condsOfObj parsed) }

/-- The `sort` method: when a truthy sort parameter is present, splits it
on commas and joins with spaces as the sort clause; otherwise sorts by
the literal key createAt, descending. A non-string truthy value (a
nested object) makes the source throw a TypeError at `split`; no claim
exercises that, and the embedding takes the default branch there. -/
def ApiFeatures.sort (af : ApiFeatures) : ApiFeatures :=
  match lookupParam af.queryString "sort" with
  | some (.str s) =>
      if s == "" then
        { af with mongooseQuery := af.mongooseQuery.sortBy "-createAt" }
      else
        { af with mongooseQuery := af.mongooseQuery.sortBy (commaToSpace s) }
  | _ => { af with mongooseQuery := af.mongooseQuery.sortBy "-createAt" }

/-- The `limitFields` method: when a truthy fields parameter is present,
splits it on commas and joins with spaces as the projection; otherwise
selects everything but the internal version key. The same TypeError
remark as for `sort` applies to a nested-object value. -/
def ApiFeatures.limitFields (af : ApiFeatures) : ApiFeatures :=
  match lookupParam af.queryString "fields" with
  | some (.str s) =>
      if s == "" then
        { af with mongooseQuery := af.mongooseQuery.selectBy "-__v" }
      else
        { af with mongooseQuery := af.mongooseQuery.selectBy (commaToSpace s) }
  | _ => { af with mongooseQuery := af.mongooseQuery.selectBy "-__v" }

/-- The condition the `search` method builds for a keyword value: for the
Products model a disjunction of case-insensitive regexes on title and
description, for every other model a case-insensitive regex on name. -/
def searchCond (modelName : String) (kw : ParamVal) : MCond :=
  if modelName == "Products" then
    .orC (.regexI "title" kw) (.regexI "description" kw)
  else
    .regexI "name" kw

/-- The `search` method: when a truthy keyword parameter is present,
merges the search condition into the query with a `find` call; otherwise
leaves the query unchanged. -/
def ApiFeatures.search (af : ApiFeatures) (modelName : String) : ApiFeatures :=
  match lookupParam af.queryString "keyword" with
  | some kw =>
      if truthyVal kw then
        { af with mongooseQuery :=
            af.mongooseQuery.find [searchCond modelName kw] }
      else af
  | none => af

/-- The `paginate` method: computes the effective page and limit with
falsy-defaulting coercion, applies skip = (page - 1) * limit and limit
to the query builder, and stores the pagination summary. -/
def ApiFeatures.paginate (af : ApiFeatures) (countDocuments : Nat) : ApiFeatures :=
  let page := effPage af.queryString
  let limit := effLimit af.queryString
  let skip := (page - 1) * limit
  { af with
      mongooseQuery := (af.mongooseQuery.skip skip).limit limit
      paginationResult := some (buildPagination af.queryString countDocuments) }

/-- Parse a space-separated sort clause into (descending?, field) keys;
a leading minus marks a descending key. -/
def sortKeyList (spec : String) : List (Bool × String) :=
  (splitChars ' ' [] spec.toList).filterMap (fun f =>
    match f with
    | [] => none
    | '-' :: rest => some (true, String.mk rest)
    | cs => some (false, String.mk cs))

/-- Engine ordering of two field values: a missing value sorts before a
present one, numbers before strings, otherwise the natural order of the
common type. -/
def cmpDVal : Option DVal → Option DVal → Ordering
  | none, none => .eq
  | none, some _ => .lt
  | some _, none => .gt
  | some (.int a), some (.int b) =>
      if a < b then .lt else if b < a then .gt else .eq
  | some (.int _), some (.str _) => .lt
  | some (.str _), some (.int _) => .gt
  | some (.str a), some (.str b) =>
      if strLt a b then .lt else if strLt b a then .gt else .eq

/-- Lexicographic document comparison over the sort keys, left to right,
each key's order swapped when descending. -/
def cmpDocs (keys : List (Bool × String)) (a b : Doc) : Ordering :=
  match keys with
  | [] => .eq
  | (desc, f) :: rest =>
      let o := cmpDVal (dlookup a f) (dlookup b f)
      let o := if desc then o.swap else o
      match o with
      | .eq => cmpDocs rest a b
      | r => r

/-- Insert a document into a list sorted by the given keys, keeping it
before documents that compare equal (stable order). -/
def insertDoc (keys : List (Bool × String)) (x : Doc) : List Doc → List Doc
  | [] => [x]
  | y :: ys =>
      if cmpDocs keys x y == Ordering.gt then y :: insertDoc keys x ys
      else x :: y :: ys

/-- Deterministic insertion sort of a result list by the sort keys. -/
def sortDocs (keys : List (Bool × String)) : List Doc → List Doc
  | [] => []
  | x :: xs => insertDoc keys x (sortDocs keys xs)

/-- The engine's projection: an all-exclusion clause removes the listed
fields, otherwise only the listed fields and the identifier are kept
(identifier inclusion is the engine default). -/
def projDoc (spec : String) (d : Doc) : Doc :=
  let fs := (splitChars ' ' [] spec.toList).filter (fun f => !(f.isEmpty))
  let isExcl : List Char → Bool := fun f =>
    match f with
    | '-' :: _ => true
    | _ => false
  if fs.all isExcl then
    let excluded := fs.map (fun f => String.mk (f.drop 1))
    d.filter (fun e => !(excluded.contains e.1))
  else
    let included := (fs.filter (fun f => !(isExcl f))).map String.mk
    d.filter (fun e => included.contains e.1 || e.1 == "_id")

/-- Execution of a built query against an in-memory collection: keep the
documents satisfying every condition, sort, skip, limit, then project.
A negative skip or limit is an engine-level error case no claim reaches;
it is clipped at 0 here. -/
def execQuery (q : MQuery) (coll : List Doc) : List Doc :=
  let matched := coll.filter (fun d => condsSat q.conds d)
  let sorted :=
    match q.sortSpec with
    | some s => sortDocs (sortKeyList s) matched
    | none => matched
  let afterSkip :=
    match q.skipVal with
    | some n => sorted.drop n.toNat
    | none => sorted
  let afterLimit :=
    match q.limitVal with
    | some n => afterSkip.take n.toNat
    | none => afterSkip
  match q.selectSpec with
  | some s => afterLimit.map (projDoc s)
  | none => afterLimit

/-- The response envelope of the generic list handler. -/
structure ListResponse where
  results : Nat
  paginationResult : Option PaginationResult
  data : List Doc
deriving DecidableEq

/-- The `ApiFeatures` value built inside the generic `getAll` handler:
the base query is `Model.find(filter)` with the request's base filter
(`req.filterObj`, empty when absent), and the chained stage order of the
source is paginate (given `Model.countDocuments()`), filter, search,
limitFields, sort. -/
def pipelineAF (baseFilter : Params) (params : Params) (modelName : String)
    (documentsCounts : Nat) : ApiFeatures :=
  let initial : ApiFeatures :=
    { mongooseQuery := emptyQuery.find (condsOfObj baseFilter)
      queryString := params
      paginationResult := none }
  ((((initial.paginate documentsCounts).filter).search modelName).limitFields).sort

/-- The generic `getAll` handler: counts the documents of the whole
collection (`Model.countDocuments()` takes no filter in the source),
builds the query pipeline, executes it, and responds with the result
count, the pagination summary and the documents. -/
def getAll (baseFilter : Params) (params : Params) (modelName : String)
    (coll : List Doc) : ListResponse :=
  let documentsCounts := coll.length
  let apiFeatures := pipelineAF baseFilter params modelName documentsCounts
  let documents := execQuery apiFeatures.mongooseQuery coll
  { results := documents.length
    paginationResult := apiFeatures.paginationResult
    data := documents }

/-! Helper lemmas. -/

theorem mathCeilDiv_eq_ceil (a b : ℤ) (hb : 0 < b) :
    mathCeilDiv a b = ⌈(a : ℚ) / (b : ℚ)⌉ := by
  have hbq : (0 : ℚ) < (b : ℚ) := by exact_mod_cast hb
  have h1 : Int.fdiv (-a) b = (-a) / b := Int.fdiv_eq_ediv _ hb.le
  set q := (-a) / b with hq
  have hq1 : q * b ≤ -a := Int.ediv_mul_le _ hb.ne'
  have hq2 : -a < (q + 1) * b := Int.lt_ediv_add_one_mul_self _ hb
  have hq1q : (q : ℚ) * (b : ℚ) ≤ -(a : ℚ) := by exact_mod_cast hq1
  have hq2q : -(a : ℚ) < ((q : ℚ) + 1) * (b : ℚ) := by exact_mod_cast hq2
  have hc : ⌈(a : ℚ) / (b : ℚ)⌉ = -q := by
    rw [Int.ceil_eq_iff]
    constructor
    · rw [lt_div_iff₀ hbq]
      push_cast
      linarith
    · rw [div_le_iff₀ hbq]
      push_cast
      linarith
  rw [hc]
  show -(Int.fdiv (-a) b) = -q
  rw [h1]

/-! Stage characterization: each stage's effect on each component of the
`ApiFeatures` state, as equations derived from the definitions. -/

/-- The conditions the filter stage merges into the query, as a function
of the raw parameter map. -/
def filterConds (params : Params) : List MCond :=
  condsOfObj (rewriteParams (params.filter
    (fun e => !(["page", "sort", "limit", "fields"].contains e.1))))

/-- The conditions the search stage merges into the query, as a function
of the resource tag and the raw parameter map. -/
def searchConds (tag : String) (params : Params) : List MCond :=
  match lookupParam params "keyword" with
  | some kw => if truthyVal kw then [searchCond tag kw] else []
  | none => []

/-- The sort clause the sort stage sets, as a function of the raw
parameter map. -/
def sortSpecOf (params : Params) : String :=
  match lookupParam params "sort" with
  | some (.str s) => if s == "" then "-createAt" else commaToSpace s
  | _ => "-createAt"

/-- The projection clause the limitFields stage sets, as a function of
the raw parameter map. -/
def selectSpecOf (params : Params) : String :=
  match lookupParam params "fields" with
  | some (.str s) => if s == "" then "-__v" else commaToSpace s
  | _ => "-__v"

theorem filter_characterization (af : ApiFeatures) :
    af.filter = { af with mongooseQuery :=
      { af.mongooseQuery with
          conds := af.mongooseQuery.conds ++ filterConds af.queryString } } := rfl

theorem search_characterization (af : ApiFeatures) (tag : String) :
    af.search tag = { af with mongooseQuery :=
      { af.mongooseQuery with
          conds := af.mongooseQuery.conds ++ searchConds tag af.queryString } } := by
  unfold ApiFeatures.search searchConds
  split
  · split
    · rfl
    · show af = _
      cases af with
      | mk mq qs pr => cases mq with
        | mk c s sel sk l => simp
  · show af = _
    cases af with
    | mk mq qs pr => cases mq with
      | mk c s sel sk l => simp

theorem sort_characterization (af : ApiFeatures) :
    af.sort = { af with mongooseQuery :=
      { af.mongooseQuery with sortSpec := some (sortSpecOf af.queryString) } } := by
  unfold ApiFeatures.sort sortSpecOf
  split
  · split <;> rfl
  · rfl

theorem limitFields_characterization (af : ApiFeatures) :
    af.limitFields = { af with mongooseQuery :=
      { af.mongooseQuery with selectSpec := some (selectSpecOf af.queryString) } } := by
  unfold ApiFeatures.limitFields selectSpecOf
  split
  · split <;> rfl
  · rfl

theorem paginate_characterization (af : ApiFeatures) (count : Nat) :
    af.paginate count = { af with
      mongooseQuery := { af.mongooseQuery with
        skipVal := some ((effPage af.queryString - 1) * effLimit af.queryString)
        limitVal := some (effLimit af.queryString) }
      paginationResult := some (buildPagination af.queryString count) } := rfl

/-! Claim theorems. -/

/-- C2: for every parameter map and total count, when the effective limit
is positive, the pagination stage produces numberOfPages equal to the
ceiling of totalCount / limit (as exact rational arithmetic). -/
theorem claim2_numberOfPages_ceil (params : Params) (totalCount : Nat)
    (h : 0 < effLimit params) :
    (buildPagination params totalCount).numberOfPages =
      ⌈(totalCount : ℚ) / (effLimit params : ℚ)⌉ := by
  have hb : (buildPagination params totalCount).numberOfPages =
      mathCeilDiv totalCount (effLimit params) := rfl
  rw [hb, mathCeilDiv_eq_ceil _ _ h]
  norm_num

/-- C2 witness: the spec's own example, 95 documents at limit 50 give 2
pages. -/
theorem claim2_numberOfPages_ceil_witness :
    0 < effLimit [("limit", ParamVal.str "50")] ∧
      (buildPagination [("limit", ParamVal.str "50")] 95).numberOfPages =
        ⌈((95 : Nat) : ℚ) / (effLimit [("limit", ParamVal.str "50")] : ℚ)⌉ :=
  ⟨by decide, claim2_numberOfPages_ceil [("limit", ParamVal.str "50")] 95 (by decide)⟩

/-- C3 counterexample: with page = 2 and limit = -5 (the limit parameter
coerces to -5, which is truthy, so no default applies), the current page
is 2 > 1 yet the stage omits prev, because the source guards prev on
skip > 0 and skip = (2 - 1) * (-5) is negative. -/
theorem claim3_counterexample :
    (buildPagination
        [("page", ParamVal.str "2"), ("limit", ParamVal.str "-5")] 100).currentPage = 2 ∧
      (1 : Int) < 2 ∧
      (buildPagination
        [("page", ParamVal.str "2"), ("limit", ParamVal.str "-5")] 100).prev = none := by
  exact ⟨by decide, by decide, by decide⟩

/-- C3 amended: next is present iff currentPage * limit < totalCount (as
the claim states), while prev is present iff (currentPage - 1) * limit >
0 — which coincides with currentPage > 1 exactly when the effective
limit is positive. -/
theorem claim3_next_prev (params : Params) (totalCount : Nat) :
    ((buildPagination params totalCount).next.isSome ↔
        effPage params * effLimit params < (totalCount : Int)) ∧
      ((buildPagination params totalCount).prev.isSome ↔
        0 < (effPage params - 1) * effLimit params) ∧
      (0 < effLimit params →
        ((buildPagination params totalCount).prev.isSome ↔ 1 < effPage params)) := by
  refine ⟨?_, ?_, ?_⟩
  · show (if effPage params * effLimit params < (totalCount : Int)
        then some (effPage params + 1) else none).isSome ↔ _
    split <;> simp_all
  · show (if 0 < (effPage params - 1) * effLimit params
        then some (effPage params - 1) else none).isSome ↔ _
    split <;> simp_all
  · intro hl
    show (if 0 < (effPage params - 1) * effLimit params
        then some (effPage params - 1) else none).isSome ↔ _
    have hiff : 0 < (effPage params - 1) * effLimit params ↔ 1 < effPage params := by
      constructor
      · intro h
        nlinarith [mul_pos_iff.mp h]
      · intro h
        have : 0 < effPage params - 1 := by omega
        positivity
    split <;> simp_all [hiff]

/-- C3 amended witness: at page 2, limit 50 and 95 documents, prev is
present and the positive-limit equivalence applies. -/
theorem claim3_next_prev_witness :
    (buildPagination
        [("page", ParamVal.str "2"), ("limit", ParamVal.str "50")] 95).prev.isSome ↔
      1 < effPage [("page", ParamVal.str "2"), ("limit", ParamVal.str "50")] :=
  (claim3_next_prev
      [("page", ParamVal.str "2"), ("limit", ParamVal.str "50")] 95).2.2 (by decide)

/-- C4 counterexample: the page parameter -2 is non-positive after
numeric coercion, yet the stage uses page = -2 rather than the claimed
default 1 — the source defaults only on falsy coercion results (NaN and
0), and -2 is truthy. -/
theorem claim4_counterexample :
    coerceNum (ParamVal.str "-2") = some (-2) ∧ (-2 : Int) ≤ 0 ∧
      (buildPagination [("page", ParamVal.str "-2")] 95).currentPage = -2 ∧
      ((-2 : Int) = 1 → False) := by
  exact ⟨by decide, by decide, by decide, by decide⟩

/-- C4 amended: page defaults to 1 exactly when the page parameter is
absent, non-numeric, or coerces to 0 (a negative value is used as-is),
and limit defaults to 50 under the same conditions; the stage then
applies skip = (page - 1) * limit and limit to the query builder. -/
theorem claim4_defaults (af : ApiFeatures) (totalCount : Nat) :
    (((lookupParam af.queryString "page").bind coerceNum = none ∨
        (lookupParam af.queryString "page").bind coerceNum = some 0) →
      effPage af.queryString = 1) ∧
    (∀ n : Int, n ≠ 0 → (lookupParam af.queryString "page").bind coerceNum = some n →
      effPage af.queryString = n) ∧
    (((lookupParam af.queryString "limit").bind coerceNum = none ∨
        (lookupParam af.queryString "limit").bind coerceNum = some 0) →
      effLimit af.queryString = 50) ∧
    (∀ n : Int, n ≠ 0 → (lookupParam af.queryString "limit").bind coerceNum = some n →
      effLimit af.queryString = n) ∧
    (af.paginate totalCount).mongooseQuery.skipVal =
      some ((effPage af.queryString - 1) * effLimit af.queryString) ∧
    (af.paginate totalCount).mongooseQuery.limitVal =
      some (effLimit af.queryString) := by
  refine ⟨?_, ?_, ?_, ?_, rfl, rfl⟩
  · intro h
    rcases hl : lookupParam af.queryString "page" with _ | pv
    · simp [effPage, jsDefaultNum, hl]
    · rw [hl] at h
      rcases hc : coerceNum pv with _ | n
      · simp [effPage, jsDefaultNum, hl, hc]
      · simp [hc] at h
        simp [effPage, jsDefaultNum, hl, hc, h]
  · intro n hn h
    rcases hl : lookupParam af.queryString "page" with _ | pv
    · rw [hl] at h
      simp at h
    · rw [hl] at h
      simp at h
      simp [effPage, jsDefaultNum, hl, h, hn]
  · intro h
    rcases hl : lookupParam af.queryString "limit" with _ | pv
    · simp [effLimit, jsDefaultNum, hl]
    · rw [hl] at h
      rcases hc : coerceNum pv with _ | n
      · simp [effLimit, jsDefaultNum, hl, hc]
      · simp [hc] at h
        simp [effLimit, jsDefaultNum, hl, hc, h]
  · intro n hn h
    rcases hl : lookupParam af.queryString "limit" with _ | pv
    · rw [hl] at h
      simp at h
    · rw [hl] at h
      simp at h
      simp [effLimit, jsDefaultNum, hl, h, hn]

/-- C4 amended witness: page absent defaults to 1, and a limit of "abc"
(NaN) defaults to 50, with skip and limit applied to the builder. -/
theorem claim4_defaults_witness :
    effPage [("limit", ParamVal.str "abc")] = 1 := by
  have h := claim4_defaults
    { mongooseQuery := emptyQuery,
      queryString := [("limit", ParamVal.str "abc")],
      paginationResult := none } 95
  exact h.1 (Or.inl (by decide))

/-- C1 (bug evidence): on a two-document collection where the base
filter (a parent-scoping filter on the cat field) matches exactly one
document, the handler hands `Model.countDocuments()` — the size of the
whole collection, 2 — to the pagination stage. At limit 1 the response
therefore reports 2 pages and a next page, although only 1 document
matches the base filter and only 1 is returned. -/
theorem claim1_count_ignores_base_filter :
    (getAll [("cat", ParamVal.str "a")] [("limit", ParamVal.str "1")] "Categories"
        [[("_id", DVal.int 1), ("cat", DVal.str "a")],
         [("_id", DVal.int 2), ("cat", DVal.str "b")]]).paginationResult.map
        (fun p => (p.numberOfPages, p.next)) = some (2, some 2) ∧
      (List.filter
        (fun d => condsSat (condsOfObj [("cat", ParamVal.str "a")]) d)
        [[("_id", DVal.int 1), ("cat", DVal.str "a")],
         [("_id", DVal.int 2), ("cat", DVal.str "b")]]).length = 1 ∧
      (getAll [("cat", ParamVal.str "a")] [("limit", ParamVal.str "1")] "Categories"
        [[("_id", DVal.int 1), ("cat", DVal.str "a")],
         [("_id", DVal.int 2), ("cat", DVal.str "b")]]).results = 1 := by
  exact ⟨by decide, by decide, by decide⟩

/-- Fields of the brand schema (src/models/brand.model.js): the declared
paths name, slug and image, the identifier, and the createdAt/updatedAt
pair maintained by the schema's timestamps option. -/
def brandSchemaFields : List String :=
  ["_id", "name", "slug", "image", "createdAt", "updatedAt"]

/-- The creation-timestamp path the timestamps option maintains. -/
def creationTimestampField : String := "createdAt"

/-- C5 (bug evidence): with no sort parameter the sort stage sets the
sort clause to the literal -createAt, whose key createAt is not a field
of the schema (the creation timestamp is createdAt). Sorting by the
missing key compares every pair of documents as equal, so a collection
whose creation-time-descending order would be reversed is returned
unchanged, while sorting by the real creation-timestamp field would
reverse it. -/
theorem claim5_default_sort_misses_timestamp :
    (({ mongooseQuery := emptyQuery, queryString := [],
        paginationResult := none } : ApiFeatures).sort).mongooseQuery.sortSpec =
        some "-createAt" ∧
      sortKeyList "-createAt" = [(true, "createAt")] ∧
      brandSchemaFields.contains "createAt" = false ∧
      sortDocs (sortKeyList "-createAt")
        [[("_id", DVal.int 1), ("createdAt", DVal.int 10)],
         [("_id", DVal.int 2), ("createdAt", DVal.int 20)]] =
        [[("_id", DVal.int 1), ("createdAt", DVal.int 10)],
         [("_id", DVal.int 2), ("createdAt", DVal.int 20)]] ∧
      sortDocs (sortKeyList ("-" ++ creationTimestampField))
        [[("_id", DVal.int 1), ("createdAt", DVal.int 10)],
         [("_id", DVal.int 2), ("createdAt", DVal.int 20)]] =
        [[("_id", DVal.int 2), ("createdAt", DVal.int 20)],
         [("_id", DVal.int 1), ("createdAt", DVal.int 10)]] := by
  exact ⟨rfl, by decide, by decide, by decide, by decide⟩

/-- The spec's predicate `price >= bound` on a document (a range filter
presumes a numeric field; a non-numeric or missing price does not
qualify). -/
def priceAtLeast (bound : Int) (d : Doc) : Bool :=
  match dlookup d "price" with
  | some (DVal.int n) => bound ≤ n
  | _ => false

/-- The spec's predicate `field == v` on a document, for a string-valued
filter. -/
def fieldEqStr (f v : String) (d : Doc) : Bool :=
  match dlookup d f with
  | some (DVal.str t) => t == v
  | _ => false

/-- C6: on the parameter map with price[gte] = 100 and category =
electronics, the filter stage (after control-key removal and the
comparison-keyword rewrite) ANDs into the query a predicate equivalent,
on every document, to price >= 100 AND category == electronics. -/
theorem claim6_filter_predicate (af : ApiFeatures)
    (h : af.queryString =
      [("price", ParamVal.obj [("gte", "100")]),
       ("category", ParamVal.str "electronics")]) (d : Doc) :
    condsSat af.filter.mongooseQuery.conds d =
      (condsSat af.mongooseQuery.conds d &&
        (priceAtLeast 100 d && fieldEqStr "category" "electronics" d)) := by
  obtain ⟨mq, qs, pr⟩ := af
  simp only at h
  subst h
  have hconds : (ApiFeatures.filter ⟨mq,
      [("price", ParamVal.obj [("gte", "100")]),
       ("category", ParamVal.str "electronics")], pr⟩).mongooseQuery.conds =
      mq.conds ++
        [MCond.field "price" (ParamVal.obj [("$gte", "100")]),
         MCond.field "category" (ParamVal.str "electronics")] := by
    show mq.conds ++ _ = _
    have hrw : condsOfObj (rewriteParams (List.filter
        (fun e => !(["page", "sort", "limit", "fields"].contains e.1))
        [("price", ParamVal.obj [("gte", "100")]),
         ("category", ParamVal.str "electronics")])) =
        [MCond.field "price" (ParamVal.obj [("$gte", "100")]),
         MCond.field "category" (ParamVal.str "electronics")] := by decide
    rw [hrw]
  rw [hconds, condsSat, List.all_append]
  congr 1
  have h100 : jsToNum "100" = some 100 := by decide
  have hel : jsToNum "electronics" = none := by decide
  rcases hp : dlookup d "price" with _ | v
  · rcases hc : dlookup d "category" with _ | w
    · simp [condsSat, evalCond, evalOp, hp, hc, priceAtLeast, fieldEqStr]
    · cases w <;> simp [condsSat, evalCond, evalOp, hp, hc, priceAtLeast, fieldEqStr, hel]
  · rcases hc : dlookup d "category" with _ | w
    · cases v <;> simp [condsSat, evalCond, evalOp, hp, hc, priceAtLeast, fieldEqStr, h100]
    · cases v <;> cases w <;>
        simp [condsSat, evalCond, evalOp, hp, hc, priceAtLeast, fieldEqStr, h100, hel]

/-- C6 witness: a document with price 150 and category electronics
satisfies the filtered query built from the example parameter map. -/
theorem claim6_filter_predicate_witness :
    condsSat (ApiFeatures.filter
        { mongooseQuery := emptyQuery,
          queryString := [("price", ParamVal.obj [("gte", "100")]),
            ("category", ParamVal.str "electronics")],
          paginationResult := none }).mongooseQuery.conds
        [("price", DVal.int 150), ("category", DVal.str "electronics")] =
      (condsSat emptyQuery.conds
          [("price", DVal.int 150), ("category", DVal.str "electronics")] &&
        (priceAtLeast 100
            [("price", DVal.int 150), ("category", DVal.str "electronics")] &&
          fieldEqStr "category" "electronics"
            [("price", DVal.int 150), ("category", DVal.str "electronics")])) :=
  claim6_filter_predicate
    { mongooseQuery := emptyQuery,
      queryString := [("price", ParamVal.obj [("gte", "100")]),
        ("category", ParamVal.str "electronics")],
      paginationResult := none } rfl
    [("price", DVal.int 150), ("category", DVal.str "electronics")]

/-- The spec's predicate for one keyword-search field: the document's
field holds a string containing the keyword case-insensitively. -/
def strFieldContainsCI (f k : String) (d : Doc) : Bool :=
  match dlookup d f with
  | some (DVal.str t) => containsCI t k
  | _ => false

theorem evalCond_regexI_str (f k : String) (d : Doc) :
    evalCond (MCond.regexI f (ParamVal.str k)) d = strFieldContainsCI f k d := by
  rcases h : dlookup d f with _ | v
  · simp [evalCond, strFieldContainsCI, h]
  · cases v <;> simp [evalCond, strFieldContainsCI, h]

theorem evalCond_orC (a b : MCond) (d : Doc) :
    evalCond (MCond.orC a b) d = (evalCond a d || evalCond b d) := rfl

/-- C7 counterexample: with the keyword parameter present but equal to
the empty string, the search stage leaves the query unchanged (the
source's truthiness guard treats the empty string as absent), although
the claimed ANDed predicate is not trivial: on a document without a
name field it evaluates to false, while the unchanged query matches
that document. -/
theorem claim7_counterexample :
    (ApiFeatures.search
        { mongooseQuery := emptyQuery,
          queryString := [("keyword", ParamVal.str "")],
          paginationResult := none } "Categories") =
      { mongooseQuery := emptyQuery,
        queryString := [("keyword", ParamVal.str "")],
        paginationResult := none } ∧
      lookupParam [("keyword", ParamVal.str "")] "keyword" =
        some (ParamVal.str "") ∧
      condsSat emptyQuery.conds [] = true ∧
      evalCond (searchCond "Categories" (ParamVal.str "")) [] = false := by
  exact ⟨by decide, by decide, by decide, by decide⟩

/-- C7 amended: for every nonempty string keyword and every resource
tag, the search stage ANDs into the query a case-insensitive substring
predicate over title OR description when the tag is Products, and over
name only otherwise; when the keyword parameter is absent (and likewise
when it is the falsy empty string) the stage is a no-op. -/
theorem claim7_search_predicate (af : ApiFeatures) (tag : String) :
    (∀ k : String, lookupParam af.queryString "keyword" = some (ParamVal.str k) →
      (k = "" → False) →
      ∀ d : Doc,
        condsSat (af.search tag).mongooseQuery.conds d =
          (condsSat af.mongooseQuery.conds d &&
            (if tag = "Products" then
              (strFieldContainsCI "title" k d || strFieldContainsCI "description" k d)
             else strFieldContainsCI "name" k d))) ∧
    (lookupParam af.queryString "keyword" = none → af.search tag = af) := by
  constructor
  · intro k hk hkne d
    have hkb : (k == "") = false := by
      simpa using hkne
    unfold ApiFeatures.search
    rw [hk]
    by_cases ht : tag = "Products" <;>
      simp [truthyVal, hkb, MQuery.find, condsSat, List.all_append, searchCond,
        ht, evalCond_orC, evalCond_regexI_str]
  · intro h
    unfold ApiFeatures.search
    rw [h]

/-- C7 amended witness: keyword phone on the Products tag matches a
document whose title contains Phone, case-insensitively. -/
theorem claim7_search_predicate_witness :
    condsSat ((ApiFeatures.search
        { mongooseQuery := emptyQuery,
          queryString := [("keyword", ParamVal.str "phone")],
          paginationResult := none } "Products")).mongooseQuery.conds
        [("title", DVal.str "My Phone 5")] =
      (condsSat emptyQuery.conds [("title", DVal.str "My Phone 5")] &&
        (if ("Products" : String) = "Products" then
          (strFieldContainsCI "title" "phone" [("title", DVal.str "My Phone 5")] ||
            strFieldContainsCI "description" "phone" [("title", DVal.str "My Phone 5")])
         else strFieldContainsCI "name" "phone" [("title", DVal.str "My Phone 5")])) :=
  (claim7_search_predicate
    { mongooseQuery := emptyQuery,
      queryString := [("keyword", ParamVal.str "phone")],
      paginationResult := none } "Products").1 "phone" rfl
    (by decide) [("title", DVal.str "My Phone 5")]

/-- C9: the full pipeline is deterministic in its inputs — two runs of
the list handler with equal base filters, parameter maps, resource tags
and collections produce equal responses (equal data and equal
paginationResult). -/
theorem claim9_pipeline_deterministic (baseFilter1 baseFilter2 params1 params2 : Params)
    (tag1 tag2 : String) (coll1 coll2 : List Doc)
    (hb : baseFilter1 = baseFilter2) (hp : params1 = params2)
    (ht : tag1 = tag2) (hc : coll1 = coll2) :
    getAll baseFilter1 params1 tag1 coll1 = getAll baseFilter2 params2 tag2 coll2 := by
  subst hb hp ht hc
  rfl

/-- C9 witness: two identical concrete runs coincide. -/
theorem claim9_pipeline_deterministic_witness :
    getAll [] [("keyword", ParamVal.str "phone")] "Products"
        [[("title", DVal.str "My Phone 5")]] =
      getAll [] [("keyword", ParamVal.str "phone")] "Products"
        [[("title", DVal.str "My Phone 5")]] :=
  claim9_pipeline_deterministic [] [] [("keyword", ParamVal.str "phone")]
    [("keyword", ParamVal.str "phone")] "Products" "Products"
    [[("title", DVal.str "My Phone 5")]] [[("title", DVal.str "My Phone 5")]]
    rfl rfl rfl rfl

/-- C10: a keyword parameter survives the filter stage's control-key
removal (only page, sort, limit and fields are deleted), so the full
pipeline ANDs into the query both an equality condition on a document
field named keyword (with the rewrite applied to its value) and the
search stage's regex condition. -/
theorem claim10_keyword_filtered_and_searched (baseFilter params : Params)
    (tag : String) (count : Nat) (k : String)
    (hk : lookupParam params "keyword" = some (ParamVal.str k))
    (hne : k = "" → False) :
    MCond.field "keyword" (ParamVal.str (replaceOps k)) ∈
        (pipelineAF baseFilter params tag count).mongooseQuery.conds ∧
      searchCond tag (ParamVal.str k) ∈
        (pipelineAF baseFilter params tag count).mongooseQuery.conds := by
  have hkb : (k == "") = false := by simpa using hne
  have hc : (pipelineAF baseFilter params tag count).mongooseQuery.conds =
      condsOfObj baseFilter ++ filterConds params ++
        [searchCond tag (ParamVal.str k)] := by
    unfold pipelineAF
    simp only [sort_characterization, limitFields_characterization,
      search_characterization, filter_characterization, paginate_characterization]
    simp [MQuery.find, emptyQuery, searchConds, hk, truthyVal, hkb]
  obtain ⟨p, hfind, hsnd⟩ := Option.map_eq_some'.mp hk
  have hfst : p.1 = "keyword" := by
    have := List.find?_some hfind
    simpa using this
  have hpe : p = ("keyword", ParamVal.str k) := by
    cases p
    simp_all
  have hmem : ("keyword", ParamVal.str k) ∈ params := by
    rw [← hpe]
    exact List.mem_of_find?_eq_some hfind
  have h2 : ("keyword", ParamVal.str k) ∈ params.filter
      (fun e => !(["page", "sort", "limit", "fields"].contains e.1)) := by
    rw [List.mem_filter]
    refine ⟨hmem, ?_⟩
    show (!(["page", "sort", "limit", "fields"].contains "keyword")) = true
    decide
  have h3 := List.mem_map_of_mem rewriteEntry h2
  have h4 : rewriteEntry ("keyword", ParamVal.str k) =
      ("keyword", ParamVal.str (replaceOps k)) := by
    show (replaceOps "keyword", ParamVal.str (replaceOps k)) = _
    have hkw : replaceOps "keyword" = "keyword" := by decide
    rw [hkw]
  rw [h4] at h3
  have h5 := List.mem_map_of_mem (fun e => MCond.field e.1 e.2) h3
  constructor
  · rw [hc]
    rw [List.mem_append, List.mem_append]
    exact Or.inl (Or.inr h5)
  · rw [hc]
    rw [List.mem_append]
    exact Or.inr (by simp)

/-- C10 witness: with keyword phone, both the equality condition on the
keyword field and the search regex condition are among the pipeline's
query conditions. -/
theorem claim10_keyword_filtered_and_searched_witness :
    MCond.field "keyword" (ParamVal.str (replaceOps "phone")) ∈
        (pipelineAF [] [("keyword", ParamVal.str "phone")] "Categories"
          0).mongooseQuery.conds ∧
      searchCond "Categories" (ParamVal.str "phone") ∈
        (pipelineAF [] [("keyword", ParamVal.str "phone")] "Categories"
          0).mongooseQuery.conds :=
  claim10_keyword_filtered_and_searched [] [("keyword", ParamVal.str "phone")]
    "Categories" 0 "phone" rfl (by decide)

/-- The four reorderable query-transform stages of the pipeline (the
paginate stage additionally needs the caller-supplied total). -/
inductive Stage
  | filterS
  | searchS
  | fieldsS
  | sortS
deriving DecidableEq

/-- Apply one stage to the `ApiFeatures` state. -/
def applyStage (tag : String) : Stage → ApiFeatures → ApiFeatures
  | .filterS, af => af.filter
  | .searchS, af => af.search tag
  | .fieldsS, af => af.limitFields
  | .sortS, af => af.sort

/-- Apply a list of stages left to right. -/
def applyStages (tag : String) (l : List Stage) (af : ApiFeatures) : ApiFeatures :=
  l.foldl (fun acc s => applyStage tag s acc) af

/-- Observational equality of two `ApiFeatures` states: the accumulated
conditions match the same documents, and the sort, projection, skip,
limit clauses, the parameter map and the pagination summary agree. -/
def stateEquiv (a b : ApiFeatures) : Prop :=
  (∀ d : Doc, condsSat a.mongooseQuery.conds d = condsSat b.mongooseQuery.conds d) ∧
  a.mongooseQuery.sortSpec = b.mongooseQuery.sortSpec ∧
  a.mongooseQuery.selectSpec = b.mongooseQuery.selectSpec ∧
  a.mongooseQuery.skipVal = b.mongooseQuery.skipVal ∧
  a.mongooseQuery.limitVal = b.mongooseQuery.limitVal ∧
  a.queryString = b.queryString ∧
  a.paginationResult = b.paginationResult

theorem condsSat_append (l1 l2 : List MCond) (d : Doc) :
    condsSat (l1 ++ l2) d = (condsSat l1 d && condsSat l2 d) :=
  List.all_append

theorem stateEquiv_refl (a : ApiFeatures) : stateEquiv a a :=
  ⟨fun _ => rfl, rfl, rfl, rfl, rfl, rfl, rfl⟩

theorem stateEquiv_trans {a b c : ApiFeatures}
    (h1 : stateEquiv a b) (h2 : stateEquiv b c) : stateEquiv a c := by
  obtain ⟨c1, s1, e1, k1, l1, q1, p1⟩ := h1
  obtain ⟨c2, s2, e2, k2, l2, q2, p2⟩ := h2
  exact ⟨fun d => (c1 d).trans (c2 d), s1.trans s2, e1.trans e2,
    k1.trans k2, l1.trans l2, q1.trans q2, p1.trans p2⟩

theorem applyStage_congr (tag : String) (s : Stage) (a b : ApiFeatures)
    (h : stateEquiv a b) : stateEquiv (applyStage tag s a) (applyStage tag s b) := by
  obtain ⟨hc, hs, hsel, hsk, hl, hq, hpr⟩ := h
  cases s
  case filterS =>
    refine ⟨fun d => ?_, hs, hsel, hsk, hl, hq, hpr⟩
    show condsSat (a.mongooseQuery.conds ++ filterConds a.queryString) d =
      condsSat (b.mongooseQuery.conds ++ filterConds b.queryString) d
    rw [condsSat_append, condsSat_append, hc d, hq]
  case searchS =>
    rw [show applyStage tag Stage.searchS a = a.search tag from rfl,
      show applyStage tag Stage.searchS b = b.search tag from rfl,
      search_characterization, search_characterization]
    refine ⟨fun d => ?_, hs, hsel, hsk, hl, hq, hpr⟩
    show condsSat (a.mongooseQuery.conds ++ searchConds tag a.queryString) d =
      condsSat (b.mongooseQuery.conds ++ searchConds tag b.queryString) d
    rw [condsSat_append, condsSat_append, hc d, hq]
  case fieldsS =>
    rw [show applyStage tag Stage.fieldsS a = a.limitFields from rfl,
      show applyStage tag Stage.fieldsS b = b.limitFields from rfl,
      limitFields_characterization, limitFields_characterization]
    refine ⟨hc, hs, ?_, hsk, hl, hq, hpr⟩
    show some (selectSpecOf a.queryString) = some (selectSpecOf b.queryString)
    rw [hq]
  case sortS =>
    rw [show applyStage tag Stage.sortS a = a.sort from rfl,
      show applyStage tag Stage.sortS b = b.sort from rfl,
      sort_characterization, sort_characterization]
    refine ⟨hc, ?_, hsel, hsk, hl, hq, hpr⟩
    show some (sortSpecOf a.queryString) = some (sortSpecOf b.queryString)
    rw [hq]

theorem applyStage_comm (tag : String) (s1 s2 : Stage) (af : ApiFeatures) :
    stateEquiv (applyStage tag s1 (applyStage tag s2 af))
      (applyStage tag s2 (applyStage tag s1 af)) := by
  obtain ⟨⟨c, ss, sel, sk, lim⟩, qs, pr⟩ := af
  cases s1 <;> cases s2 <;>
    simp only [applyStage, filter_characterization, search_characterization,
      sort_characterization, limitFields_characterization] <;>
    refine ⟨fun d => ?_, rfl, rfl, rfl, rfl, rfl, rfl⟩ <;>
    simp [condsSat_append, Bool.and_comm, Bool.and_assoc, Bool.and_left_comm]

theorem applyStages_congr (tag : String) (l : List Stage) :
    ∀ a b : ApiFeatures, stateEquiv a b →
      stateEquiv (applyStages tag l a) (applyStages tag l b) := by
  induction l with
  | nil => exact fun a b h => h
  | cons x xs ih => exact fun a b h => ih _ _ (applyStage_congr tag x a b h)

theorem applyStages_perm (tag : String) {l1 l2 : List Stage} (h : l1.Perm l2) :
    ∀ af : ApiFeatures, stateEquiv (applyStages tag l1 af) (applyStages tag l2 af) := by
  induction h with
  | nil => exact fun af => stateEquiv_refl _
  | cons x h ih => exact fun af => ih (applyStage tag x af)
  | swap x y l => exact fun af => applyStages_congr tag l _ _ (applyStage_comm tag x y af)
  | trans h1 h2 ih1 ih2 => exact fun af => stateEquiv_trans (ih1 af) (ih2 af)

theorem paginate_congr {a b : ApiFeatures} (n : Nat) (h : stateEquiv a b) :
    stateEquiv (a.paginate n) (b.paginate n) := by
  obtain ⟨hc, hs, hsel, hsk, hl, hq, hpr⟩ := h
  refine ⟨hc, hs, hsel, ?_, ?_, hq, ?_⟩
  · show some ((effPage a.queryString - 1) * effLimit a.queryString) =
      some ((effPage b.queryString - 1) * effLimit b.queryString)
    rw [hq]
  · show some (effLimit a.queryString) = some (effLimit b.queryString)
    rw [hq]
  · show some (buildPagination a.queryString n) = some (buildPagination b.queryString n)
    rw [hq]

/-- C8: from any starting state, applying the Filter, Search,
FieldSelection and Sort stages in any order, followed by Pagination with
the precomputed total, yields a final query state observationally equal
to the canonical order Filter, Search, FieldSelection, Sort,
Pagination. -/
theorem claim8_stages_commute (af : ApiFeatures) (tag : String) (count : Nat)
    (l : List Stage)
    (h : l.Perm [Stage.filterS, Stage.searchS, Stage.fieldsS, Stage.sortS]) :
    stateEquiv ((applyStages tag l af).paginate count)
      ((applyStages tag
        [Stage.filterS, Stage.searchS, Stage.fieldsS, Stage.sortS] af).paginate count) :=
  paginate_congr count (applyStages_perm tag h af)

/-- C8 witness: the fully reversed stage order agrees with the canonical
order on a concrete keyword query. -/
theorem claim8_stages_commute_witness :
    ([Stage.sortS, Stage.fieldsS, Stage.searchS, Stage.filterS].Perm
        [Stage.filterS, Stage.searchS, Stage.fieldsS, Stage.sortS]) ∧
      stateEquiv
        ((applyStages "Products"
            [Stage.sortS, Stage.fieldsS, Stage.searchS, Stage.filterS]
            { mongooseQuery := emptyQuery,
              queryString := [("keyword", ParamVal.str "phone")],
              paginationResult := none }).paginate 3)
        ((applyStages "Products"
            [Stage.filterS, Stage.searchS, Stage.fieldsS, Stage.sortS]
            { mongooseQuery := emptyQuery,
              queryString := [("keyword", ParamVal.str "phone")],
              paginationResult := none }).paginate 3) :=
  ⟨by decide, claim8_stages_commute
    { mongooseQuery := emptyQuery,
      queryString := [("keyword", ParamVal.str "phone")],
      paginationResult := none } "Products" 3
    [Stage.sortS, Stage.fieldsS, Stage.searchS, Stage.filterS] (by decide)⟩

end Ecom
